import Mathlib

/-!
Verification development for the cloudiac task-manager and policy-scan core.

The Go sources embedded here are:
  * `taskDoneProcessAutoDestroy`, `taskDoneProcessDriftTask` (task_manager),
  * `GetScanTaskType`, `IsScanableEnv`, `IsScanableTpl`, `ScanTemplateOrEnv`,
    `groupByGroup`, `PolicyScanReport`, `PolicyTest` (portal/apps/policy.go).

Database/service calls (`services.*`) are not part of the sources; they are
modelled as explicit state transformers or input oracles, with the branching
logic of the embedded functions translated directly from the Go code.
-/

namespace Cloudiac

/-- Task type constants (models.TaskType*).  The concrete string values are
not in the sources; they are only required to be pairwise distinct, which
the stand-ins below are. -/
def TaskTypeApply : String := "apply"

def TaskTypeDestroy : String := "destroy"

def TaskTypeEnvScan : String := "envScan"

def TaskTypeEnvParse : String := "envParse"

def TaskTypeTplScan : String := "tplScan"

def TaskTypeTplParse : String := "tplParse"

/-- Environment status constants (models.EnvStatus*). -/
def EnvStatusActive : String := "active"

def EnvStatusInactive : String := "inactive"

/-- Policy status constants (common.PolicyStatus*). -/
def PolicyStatusPending : String := "pending"

def PolicyStatusPassed : String := "passed"

def PolicyStatusViolated : String := "violated"

def PolicyStatusFailed : String := "failed"

def PolicyStatusSuppressed : String := "suppressed"

/-- Template status constant (models.Disable). -/
def TplStatusDisable : String := "disable"

/-! ## Scan-type resolution (policy.go, `GetScanTaskType`) -/

/-- `GetScanTaskType(envId, parseOnly)` from policy.go lines 135-146,
translated branch for branch. -/
def GetScanTaskType (envId : String) (parseOnly : Bool) : String :=
  if envId ≠ "" ∧ ¬parseOnly then TaskTypeEnvScan
  else if envId ≠ "" ∧ parseOnly then TaskTypeEnvParse
  else if envId = "" ∧ ¬parseOnly then TaskTypeTplScan
  else TaskTypeTplParse

/-! ## Auto-destroy scheduling (task_manager, `taskDoneProcessAutoDestroy`) -/

/-- The environment row fields touched or read by the task-manager code
(`models.Env`).  Time is modelled as `Nat`. -/
structure Env where
  id : String
  status : String
  ttl : String
  autoDestroyAt : Option Nat
  autoDestroyTaskId : String
  lastResTaskId : String
  lastScanTaskId : String
deriving DecidableEq, Repr

/-- The `models.Attrs` map built by `taskDoneProcessAutoDestroy`; only the
keys `AutoDestroyAt` and `AutoDestroyTaskId` are ever put in it.  An outer
`none` means the key is absent from the map. -/
structure EnvUpdateAttrs where
  autoDestroyAt : Option (Option Nat) := none
  autoDestroyTaskId : Option String := none
deriving DecidableEq, Repr

/-- `services.UpdateEnv`: apply the attribute map to the row, leaving every
column not named in the map unchanged. -/
def updateEnv (env : Env) (u : EnvUpdateAttrs) : Env :=
  { env with
    autoDestroyAt := u.autoDestroyAt.getD env.autoDestroyAt
    autoDestroyTaskId := u.autoDestroyTaskId.getD env.autoDestroyTaskId }

/-- `taskDoneProcessAutoDestroy` (task_manager lines 122-155).
`getEnv` is the result of `services.GetEnv` for the task's environment,
`parseTTL` models `services.ParseTTL`, and `now` the wall clock read by
`time.Now()`.  Returns the updated environment row or an error. -/
def taskDoneProcessAutoDestroy (now : Nat) (parseTTL : String → Option Nat)
    (getEnv : Option Env) (taskType : String) : Except String Env :=
  match getEnv with
  | none => .error "get env"
  | some env =>
    let u0 : EnvUpdateAttrs :=
      if taskType = TaskTypeDestroy ∧ env.status = EnvStatusInactive then
        { autoDestroyAt := some none, autoDestroyTaskId := some "" }
      else {}
    if taskType = TaskTypeApply ∧ env.status = EnvStatusActive ∧
        env.autoDestroyAt = none ∧ env.ttl ≠ "" ∧ env.ttl ≠ "0" then
      match parseTTL env.ttl with
      | none => .error "parse ttl"
      | some d => .ok (updateEnv env { u0 with autoDestroyAt := some (some (now + d)) })
    else
      .ok (updateEnv env u0)

/-! ## Drift reconciliation (task_manager, `taskDoneProcessDriftTask`)

The drift rows for the environment's last-apply task are modelled as the
finite set of resource addresses that currently have a row
(`iac_resource_drift` keyed by `env.LastResTaskId`).  The newly detected
drift map `ParseResourceDriftInfo(bs)` is modelled by its key list
`driftMap` (the attached drift details do not affect which rows exist). -/

/-- Modelled from the spec: `services.DeleteEnvResourceDrift` (called when
the new detection is empty) deletes all prior drift rows for the
environment's last-apply task. -/
def DeleteEnvResourceDrift : Finset String := ∅

/-- Modelled from the spec: `services.DeleteEnvResourceDriftByAddressList`
deletes the rows whose address is absent from the newly detected address
list (the already-repaired resources), keeping the rows for addresses
present in it. -/
def DeleteEnvResourceDriftByAddressList (rows : Finset String)
    (addressList : List String) : Finset String :=
  rows.filter (fun a => a ∈ addressList)

/-- Modelled from the spec: `services.InsertOrUpdateCronTaskInfo` upserts
the drift row for one address. -/
def InsertOrUpdateCronTaskInfo (rows : Finset String) (address : String) :
    Finset String :=
  insert address rows

/-- The body of the `else` branch of `taskDoneProcessDriftTask` lines 86-111:
reconcile the stored drift rows against the detected map.  `lookup` models
`services.GetResourceIdByAddressAndTaskId`; a `none` result is the error
branch, which logs and `continue`s without writing that address. -/
def reconcileDrift (lookup : String → Option Nat) (driftMap : List String)
    (rows : Finset String) : Finset String :=
  if driftMap = [] then
    DeleteEnvResourceDrift
  else
    let addressList := driftMap
    let rows1 := DeleteEnvResourceDriftByAddressList rows addressList
    driftMap.foldl
      (fun s address =>
        match lookup address with
        | none => s
        | some _ => InsertOrUpdateCronTaskInfo s address)
      rows1

/-- Input oracles for the outer error handling of `taskDoneProcessDriftTask`
(lines 69-120): `planStep` is `services.GetTaskPlanStep` (a `none` is the
logged, non-fatal error branch), `logBytes` is `readIfExist` of the plan
output log (a `none` is the logged read-error branch), `getEnv` is
`services.GetEnv` (its failure returns the error). -/
structure DriftOracle where
  planStep : Option Nat
  logBytes : Option (List String)
  getEnv : Option Env
deriving Repr

/-- `taskDoneProcessDriftTask` (task_manager lines 69-120) over the drift
row set for `env.LastResTaskId`.  The detected drift map is
`ParseResourceDriftInfo` of the log bytes; since the claims quantify over
arbitrary detections, the oracle carries the parsed key list directly. -/
def taskDoneProcessDriftTask (o : DriftOracle) (lookup : String → Option Nat)
    (rows : Finset String) : Except String (Finset String) :=
  match o.planStep with
  | none => .ok rows
  | some _ =>
    match o.logBytes with
    | none => .ok rows
    | some driftMap =>
      match o.getEnv with
      | none => .error "get env"
      | some _ => .ok (reconcileDrift lookup driftMap rows)

/-! ## Scan eligibility gate and scan-task creation (policy.go lines 47-213)

The database transaction is reduced to its observable state; `tx.Rollback()`
sends it to `rolledBack`, `tx.Commit()` to `committed`.  Service lookups are
oracles recorded in `PolicyDb` / `ScanSteps`; the branching on their results
is translated from the Go code. -/

/-- Error codes from `consts/e` used by the embedded functions. -/
inductive ECode where
  | EnvNotExists
  | EnvArchived
  | TemplateNotExists
  | TemplateDisabled
  | PolicyScanNotEnabled
  | DBError
  | InternalError
deriving DecidableEq, Repr

/-- Observable state of the request transaction opened by `c.Tx()`. -/
inductive TxState where
  | opened
  | committed
  | rolledBack
deriving DecidableEq, Repr

/-- `tx.Rollback()`. -/
def rollback (_ : TxState) : TxState := .rolledBack

/-- The environment fields read by the scan gate. -/
structure ScanEnv where
  archived : Bool
deriving DecidableEq, Repr

/-- The template fields read by the scan gate. -/
structure ScanTpl where
  status : String
deriving DecidableEq, Repr

/-- The scan-task fields this development needs. -/
structure ScanTask where
  id : String
  type : String
deriving DecidableEq, Repr

/-- Lookup oracles for the `services.*` calls made by the scan gate. -/
structure PolicyDb where
  getEnvById : String → Except ECode ScanEnv
  isEnvEnabledScan : String → Except ECode Bool
  getTemplateById : String → Except ECode ScanTpl
  isTemplateEnabledScan : String → Except ECode Bool

/-- `IsScanableEnv` (policy.go lines 148-173), returning the transaction
state it leaves behind together with the Go return value. -/
def IsScanableEnv (db : PolicyDb) (envId : String) (isParse : Bool)
    (tx : TxState) : TxState × Except ECode ScanEnv :=
  match db.getEnvById envId with
  | .error c =>
    if c = ECode.EnvNotExists then (rollback tx, .error ECode.EnvNotExists)
    else (rollback tx, .error ECode.DBError)
  | .ok env =>
    if env.archived then (tx, .error ECode.EnvArchived)
    else
      match db.isEnvEnabledScan envId with
      | .error _ => (rollback tx, .error ECode.DBError)
      | .ok enabled =>
        if ¬enabled ∧ ¬isParse then (rollback tx, .error ECode.PolicyScanNotEnabled)
        else (tx, .ok env)

/-- `IsScanableTpl` (policy.go lines 175-198). -/
def IsScanableTpl (db : PolicyDb) (tplId : String) (envId : String)
    (isParse : Bool) (tx : TxState) : TxState × Except ECode ScanTpl :=
  match db.getTemplateById tplId with
  | .error c =>
    if c = ECode.TemplateNotExists then (tx, .error ECode.TemplateNotExists)
    else (tx, .error ECode.DBError)
  | .ok tpl =>
    if tpl.status = TplStatusDisable then (tx, .error ECode.TemplateDisabled)
    else if envId = "" then
      match db.isTemplateEnabledScan tplId with
      | .error _ => (rollback tx, .error ECode.DBError)
      | .ok enabled =>
        if ¬enabled ∧ ¬isParse then (rollback tx, .error ECode.PolicyScanNotEnabled)
        else (tx, .ok tpl)
    else (tx, .ok tpl)

/-- Result oracles for the remaining steps of `ScanTemplateOrEnv`:
`services.GetDefaultRunnerId`, `services.CreateEnvScanTask` /
`services.CreateScanTask`, `services.InitScanResult`,
`UpdateLastScanTaskId`, and `tx.Commit()` (`some c` is a failure). -/
structure ScanSteps where
  getDefaultRunnerId : Except ECode String
  createTask : Except ECode ScanTask
  initScanResult : Option ECode
  updateLastScan : Option ECode
  commit : Option ECode

/-- `ScanTemplateOrEnv` (policy.go lines 47-133), translated error path for
error path.  Returns the final transaction state and the Go return value.
Note the `initScanResult` failure branch (lines 117-119), which returns the
error without calling `tx.Rollback()`, unlike every sibling error path. -/
def ScanTemplateOrEnv (db : PolicyDb) (steps : ScanSteps) (tplId envId : String)
    (parseOnly : Bool) : TxState × Except ECode ScanTask :=
  let tx0 := TxState.opened
  let envStep : TxState × Except ECode Unit :=
    if envId = "" then (tx0, .ok ())
    else
      match IsScanableEnv db envId parseOnly tx0 with
      | (tx1, .error c) => (tx1, .error c)
      | (tx1, .ok _) => (tx1, .ok ())
  match envStep with
  | (tx1, .error c) => (tx1, .error c)
  | (tx1, .ok _) =>
    match IsScanableTpl db tplId envId parseOnly tx1 with
    | (tx2, .error c) => (rollback tx2, .error c)
    | (tx2, .ok _) =>
      match steps.getDefaultRunnerId with
      | .error c => (rollback tx2, .error c)
      | .ok _ =>
        match steps.createTask with
        | .error c => (rollback tx2, .error c)
        | .ok task =>
          match steps.initScanResult with
          | some c => (tx2, .error c)
          | none =>
            match steps.updateLastScan with
            | some c => (rollback tx2, .error c)
            | none =>
              match steps.commit with
              | some c => (rollback tx2, .error c)
              | none => (TxState.committed, .ok task)

/-! ## Result grouping (policy.go, `groupByGroup`) -/

/-- The fields of `apps.PolicyResult` the grouping reads. -/
structure PolicyResult where
  policyGroupId : String
  policyGroupName : String
  status : String
deriving DecidableEq, Repr

/-- `apps.Summary`. -/
structure Summary where
  passed : Nat := 0
  violated : Nat := 0
  suppressed : Nat := 0
  failed : Nat := 0
deriving DecidableEq, Repr

/-- `apps.PolicyResultGroup`. -/
structure PolicyResultGroup where
  id : String := ""
  name : String := ""
  summary : Summary := {}
  list : List PolicyResult := []
deriving DecidableEq, Repr

/-- The per-row `switch r.Status` of `groupByGroup` (no default case). -/
def bumpSummary (s : Summary) (status : String) : Summary :=
  if status = PolicyStatusPassed then { s with passed := s.passed + 1 }
  else if status = PolicyStatusViolated then { s with violated := s.violated + 1 }
  else if status = PolicyStatusFailed then { s with failed := s.failed + 1 }
  else if status = PolicyStatusSuppressed then { s with suppressed := s.suppressed + 1 }
  else s

/-- The loop body after the group switch: append the row to `lastGroup.List`
and bump the summary. -/
def addRow (g : PolicyResultGroup) (r : PolicyResult) : PolicyResultGroup :=
  { g with list := g.list ++ [r], summary := bumpSummary g.summary r.status }

/-- The loop of `groupByGroup` (policy.go lines 711-730).  `cur` is the Go
`lastGroup` pointer and `emitted` records whether `cur` has been appended to
`resultGroups`; when a row's group name differs from `cur.name`, `cur` is
flushed (if emitted) and a fresh group is started and marked emitted. -/
def gbgRun (cur : PolicyResultGroup) (emitted : Bool) :
    List PolicyResult → List PolicyResultGroup
  | [] => if emitted then [cur] else []
  | r :: rest =>
    if cur.name = r.policyGroupName then
      gbgRun (addRow cur r) emitted rest
    else
      (if emitted then [cur] else []) ++
        gbgRun (addRow { id := r.policyGroupId, name := r.policyGroupName } r)
          true rest

/-- `groupByGroup` (policy.go lines 708-732): the Go `lastGroup` starts as
the sentinel `&PolicyResultGroup{}` (empty name) which is *not* in
`resultGroups`. -/
def groupByGroup (results : List PolicyResult) : List PolicyResultGroup :=
  gbgRun {} false results

/-! ## Compliance time-series report (policy.go, `PolicyScanReport`)

`Percent` is Go `float64`; the computation only adds and divides, so it is
modelled exactly over `ℚ`. -/

/-- One row of `services.GetPolicyScanStatus`: a per-date, per-status count.
`date` is the full timestamp string, e.g. `2021-08-08T00:00:00+08:00`. -/
structure ScanStatusRec where
  date : String
  status : String
  count : Int
deriving DecidableEq, Repr

/-- `s.Date[5:10]`, e.g. `2021-08-08...` becomes `08-08`. -/
def shortDate (s : String) : String := (s.drop 5).take 5

/-- The body of the `for _, s := range scanStatus` loop (policy.go lines
859-887) restricted to the polyline state: `st.1` is `totalScan.Value`,
`st.2` is `passedScan.Value`.  It locates the date bucket (returning the
`date not in time range` error when absent), accumulates the non-pending
count, overwrites the passed value with `Percent(s.Count)`, and then runs
the inner normalization loop over *all* buckets. -/
def scanReportStep (cols : List String) (st : List Int × List ℚ)
    (s : ScanStatusRec) : Except String (List Int × List ℚ) :=
  let d := shortDate s.date
  match cols.findIdx? (fun c => c = d) with
  | none => .error "date not in time range"
  | some idx =>
    let total :=
      if s.status ≠ PolicyStatusPending then
        st.1.set idx (st.1.getD idx 0 + s.count)
      else st.1
    let passed :=
      if s.status = PolicyStatusPassed then st.2.set idx (s.count : ℚ)
      else st.2
    let passed2 :=
      List.zipWith (fun t p => if t = 0 then (0 : ℚ) else p / (t : ℚ)) total passed
    .ok (total, passed2)

/-- The polyline part of `PolicyScanReport` (policy.go lines 829-899): the
time-point columns are initialized with zero values for every date before
the scan-status rows are folded in. -/
def policyScanReportRates (timePoints : List String)
    (scanStatus : List ScanStatusRec) : Except String (List Int × List ℚ) :=
  let init : List Int × List ℚ :=
    (timePoints.map (fun _ => (0 : Int)), timePoints.map (fun _ => (0 : ℚ)))
  scanStatus.foldlM (scanReportStep timePoints) init

/-- Modelled from the spec: the pass-rate the report is specified to produce
for one bucket — the passed count divided by the bucket's total non-pending
count, and `0` when that total is zero. -/
def specBucketPassRate (scanStatus : List ScanStatusRec) (col : String) : ℚ :=
  let rows := scanStatus.filter (fun s => shortDate s.date = col)
  let total : Int :=
    ((rows.filter (fun s => s.status ≠ PolicyStatusPending)).map (·.count)).sum
  let passed : Int :=
    ((rows.filter (fun s => s.status = PolicyStatusPassed)).map (·.count)).sum
  if total = 0 then 0 else (passed : ℚ) / (total : ℚ)

/-! ## Policy evaluation outcome (policy.go, `PolicyTest`) -/

/-- Input oracles for `PolicyTest`: validity of `json.Unmarshal(form.Input)`,
success of the temp-dir and file writes, the `policy.RegoParse` result, and
`(&policy.Rego{}).ParseResource` applied to that result. -/
structure PolicyTestEnv where
  inputValid : Bool
  mkTempOk : Bool
  writeRegoOk : Bool
  writeInputOk : Bool
  regoParse : Except String String
  parseResource : String → List String

/-- The fields of `apps.PolicyTestResp` the claim is about. -/
structure PolicyTestResp where
  errMsg : String
  policyStatus : String
deriving DecidableEq, Repr

/-- `PolicyTest` (policy.go lines 947-992), branch for branch. -/
def PolicyTest (o : PolicyTestEnv) : Except ECode PolicyTestResp :=
  if ¬o.inputValid then .ok { errMsg := "invalid input", policyStatus := "" }
  else if ¬o.mkTempOk then .error ECode.InternalError
  else if ¬o.writeRegoOk then .error ECode.InternalError
  else if ¬o.writeInputOk then .error ECode.InternalError
  else
    match o.regoParse with
    | .error m => .ok { errMsg := m, policyStatus := PolicyStatusFailed }
    | .ok result =>
      let res := o.parseResource result
      let status :=
        if res.length > 0 then PolicyStatusViolated else PolicyStatusPassed
      .ok { errMsg := "", policyStatus := status }

/-! ## Theorems -/

/-- Claim C6: scan-type resolution is a pure total function of
(environment present?, parseOnly?): environment present and not parseOnly
gives env-scan; environment present and parseOnly gives env-parse; no
environment and not parseOnly gives tpl-scan; no environment and parseOnly
gives tpl-parse; environment presence takes precedence. -/
theorem scan_type_resolution :
    (∀ envId : String, envId ≠ "" →
      GetScanTaskType envId false = TaskTypeEnvScan ∧
      GetScanTaskType envId true = TaskTypeEnvParse) ∧
    GetScanTaskType "" false = TaskTypeTplScan ∧
    GetScanTaskType "" true = TaskTypeTplParse := by
  refine ⟨fun envId h => ⟨?_, ?_⟩, ?_, ?_⟩
  · simp [GetScanTaskType, h]
  · simp [GetScanTaskType, h]
  · simp [GetScanTaskType]
  · simp [GetScanTaskType]

/-- Witness for C6 at a concrete environment id. -/
theorem scan_type_resolution_witness :
    GetScanTaskType "env1" false = TaskTypeEnvScan := by
  exact (scan_type_resolution.1 "env1" (by decide)).1

/-- Claim C3: a successful apply finalized into an active environment with
no auto-destroy timestamp set and a non-empty, non-"0" TTL sets
`auto_destroy_at` to now plus the parsed TTL; and a second apply finalized
while the timestamp is already set leaves the environment unchanged. -/
theorem auto_destroy_set_once (now d t : Nat) (parseTTL : String → Option Nat)
    (env env2 : Env)
    (hst : env.status = EnvStatusActive) (hat : env.autoDestroyAt = none)
    (h1 : env.ttl ≠ "") (h2 : env.ttl ≠ "0")
    (hp : parseTTL env.ttl = some d)
    (hst2 : env2.status = EnvStatusActive) (hat2 : env2.autoDestroyAt = some t) :
    taskDoneProcessAutoDestroy now parseTTL (some env) TaskTypeApply =
      .ok { env with autoDestroyAt := some (now + d) } ∧
    taskDoneProcessAutoDestroy now parseTTL (some env2) TaskTypeApply =
      .ok env2 := by
  constructor
  · simp [taskDoneProcessAutoDestroy, hst, hat, h1, h2, hp, updateEnv,
      TaskTypeApply, TaskTypeDestroy, EnvStatusActive, EnvStatusInactive]
  · rcases env2 with ⟨i2, s2, t2, a2, d2, r2, l2⟩
    simp only [] at hst2 hat2
    subst hst2
    subst hat2
    simp [taskDoneProcessAutoDestroy, updateEnv,
      TaskTypeApply, TaskTypeDestroy, EnvStatusActive, EnvStatusInactive]

/-- Witness for C3: a concrete apply with ttl "24h" parsed as 24. -/
theorem auto_destroy_set_once_witness :
    taskDoneProcessAutoDestroy 100 (fun _ => some 24)
        (some { id := "env1", status := EnvStatusActive, ttl := "24h",
                autoDestroyAt := none, autoDestroyTaskId := "",
                lastResTaskId := "", lastScanTaskId := "" }) TaskTypeApply =
      .ok { id := "env1", status := EnvStatusActive, ttl := "24h",
            autoDestroyAt := some 124, autoDestroyTaskId := "",
            lastResTaskId := "", lastScanTaskId := "" } := by
  exact (auto_destroy_set_once 100 24 0 (fun _ => some 24)
    { id := "env1", status := EnvStatusActive, ttl := "24h",
      autoDestroyAt := none, autoDestroyTaskId := "",
      lastResTaskId := "", lastScanTaskId := "" }
    { id := "env1", status := EnvStatusActive, ttl := "24h",
      autoDestroyAt := some 0, autoDestroyTaskId := "",
      lastResTaskId := "", lastScanTaskId := "" }
    rfl rfl (by decide) (by decide) rfl rfl rfl).1

/-- Claim C8: a successfully finalized destroy task whose environment has
become inactive clears both the auto-destroy timestamp and the scheduled
destroy-task reference, leaving the TTL and every other environment field
unchanged. -/
theorem destroy_clears_auto_destroy (now : Nat) (parseTTL : String → Option Nat)
    (env : Env) (hst : env.status = EnvStatusInactive) :
    taskDoneProcessAutoDestroy now parseTTL (some env) TaskTypeDestroy =
      .ok { env with autoDestroyAt := none, autoDestroyTaskId := "" } ∧
    ({ env with autoDestroyAt := none, autoDestroyTaskId := "" } : Env).ttl =
      env.ttl ∧
    ({ env with autoDestroyAt := none, autoDestroyTaskId := "" } : Env).id =
      env.id ∧
    ({ env with autoDestroyAt := none, autoDestroyTaskId := "" } : Env).status =
      env.status ∧
    ({ env with
        autoDestroyAt := none
        autoDestroyTaskId := "" } : Env).lastResTaskId = env.lastResTaskId ∧
    ({ env with
        autoDestroyAt := none
        autoDestroyTaskId := "" } : Env).lastScanTaskId = env.lastScanTaskId := by
  refine ⟨?_, rfl, rfl, rfl, rfl, rfl⟩
  simp [taskDoneProcessAutoDestroy, hst, updateEnv,
    TaskTypeApply, TaskTypeDestroy, EnvStatusActive, EnvStatusInactive]

/-- Witness for C8 at a concrete environment. -/
theorem destroy_clears_auto_destroy_witness :
    taskDoneProcessAutoDestroy 100 (fun _ => some 24)
        (some { id := "env1", status := EnvStatusInactive, ttl := "24h",
                autoDestroyAt := some 124, autoDestroyTaskId := "t9",
                lastResTaskId := "r1", lastScanTaskId := "s1" })
        TaskTypeDestroy =
      .ok { id := "env1", status := EnvStatusInactive, ttl := "24h",
            autoDestroyAt := none, autoDestroyTaskId := "",
            lastResTaskId := "r1", lastScanTaskId := "s1" } := by
  exact (destroy_clears_auto_destroy 100 (fun _ => some 24)
    { id := "env1", status := EnvStatusInactive, ttl := "24h",
      autoDestroyAt := some 124, autoDestroyTaskId := "t9",
      lastResTaskId := "r1", lastScanTaskId := "s1" } rfl).1

/-- Claim C4: on a target whose compliance scanning is not enabled, the
scan gate fails with `PolicyScanNotEnabled` when parseOnly is false and
passes when parseOnly is true; when scanning is enabled it passes for
either parseOnly value.  Stated for both the environment gate
(`IsScanableEnv`) and the template gate (`IsScanableTpl`). -/
theorem scan_not_enabled_gate (db : PolicyDb) (envId tplId : String)
    (env : ScanEnv) (tpl : ScanTpl) (tx : TxState)
    (henv : db.getEnvById envId = .ok env) (harch : env.archived = false)
    (htpl : db.getTemplateById tplId = .ok tpl)
    (hdis : tpl.status ≠ TplStatusDisable) :
    (db.isEnvEnabledScan envId = .ok false →
      (IsScanableEnv db envId false tx).2 = .error ECode.PolicyScanNotEnabled ∧
      (IsScanableEnv db envId true tx).2 = .ok env) ∧
    (db.isEnvEnabledScan envId = .ok true →
      ∀ b, (IsScanableEnv db envId b tx).2 = .ok env) ∧
    (db.isTemplateEnabledScan tplId = .ok false →
      (IsScanableTpl db tplId "" false tx).2 = .error ECode.PolicyScanNotEnabled ∧
      (IsScanableTpl db tplId "" true tx).2 = .ok tpl) ∧
    (db.isTemplateEnabledScan tplId = .ok true →
      ∀ b, (IsScanableTpl db tplId "" b tx).2 = .ok tpl) := by
  refine ⟨fun hen => ⟨?_, ?_⟩, fun hen b => ?_, fun hen => ⟨?_, ?_⟩,
    fun hen b => ?_⟩
  · simp [IsScanableEnv, henv, harch, hen]
  · simp [IsScanableEnv, henv, harch, hen]
  · cases b <;> simp [IsScanableEnv, henv, harch, hen]
  · simp [IsScanableTpl, htpl, hdis, hen]
  · simp [IsScanableTpl, htpl, hdis, hen]
  · cases b <;> simp [IsScanableTpl, htpl, hdis, hen]

/-- A concrete database for the C4 witness: the env and tpl both exist,
are not archived/disabled, and have compliance scanning disabled. -/
def scanGateDb : PolicyDb where
  getEnvById := fun _ => .ok { archived := false }
  isEnvEnabledScan := fun _ => .ok false
  getTemplateById := fun _ => .ok { status := "enable" }
  isTemplateEnabledScan := fun _ => .ok false

/-- Witness for C4: scanning disabled, parseOnly=false fails with
`PolicyScanNotEnabled` and parseOnly=true succeeds, on a concrete db. -/
theorem scan_not_enabled_gate_witness :
    (IsScanableTpl scanGateDb "tpl1" "" false .opened).2 =
      .error ECode.PolicyScanNotEnabled ∧
    (IsScanableTpl scanGateDb "tpl1" "" true .opened).2 =
      .ok { status := "enable" } := by
  exact (scan_not_enabled_gate scanGateDb "env1" "tpl1" { archived := false }
    { status := "enable" } .opened rfl rfl rfl (by decide)).2.2.1 rfl

/-- Claim C5: in `PolicyTest`, once the evaluator runs, an evaluator error
yields status `failed`, an error-free run with no violations yields
`passed`, an error-free run with violations yields `violated`; the
resulting status is always exactly one of the three (the three status
constants being pairwise distinct). -/
theorem policy_test_classification (o : PolicyTestEnv)
    (h1 : o.inputValid = true) (h2 : o.mkTempOk = true)
    (h3 : o.writeRegoOk = true) (h4 : o.writeInputOk = true) :
    (∀ m, o.regoParse = .error m →
      PolicyTest o = .ok { errMsg := m, policyStatus := PolicyStatusFailed }) ∧
    (∀ v, o.regoParse = .ok v → o.parseResource v = [] →
      PolicyTest o = .ok { errMsg := "", policyStatus := PolicyStatusPassed }) ∧
    (∀ v, o.regoParse = .ok v → o.parseResource v ≠ [] →
      PolicyTest o = .ok { errMsg := "", policyStatus := PolicyStatusViolated }) ∧
    (∃ r, PolicyTest o = .ok r ∧
      (r.policyStatus = PolicyStatusFailed ∨ r.policyStatus = PolicyStatusPassed ∨
        r.policyStatus = PolicyStatusViolated)) ∧
    (PolicyStatusFailed ≠ PolicyStatusPassed ∧
      PolicyStatusFailed ≠ PolicyStatusViolated ∧
      PolicyStatusPassed ≠ PolicyStatusViolated) := by
  refine ⟨fun m hm => ?_, fun v hv hres => ?_, fun v hv hres => ?_, ?_,
    by decide, by decide, by decide⟩
  · simp [PolicyTest, h1, h2, h3, h4, hm]
  · simp [PolicyTest, h1, h2, h3, h4, hv, hres]
  · have : (o.parseResource v).length > 0 := List.length_pos.mpr hres
    simp [PolicyTest, h1, h2, h3, h4, hv, this]
  · cases hr : o.regoParse with
    | error m =>
      exact ⟨{ errMsg := m, policyStatus := PolicyStatusFailed },
        by simp [PolicyTest, h1, h2, h3, h4, hr], Or.inl rfl⟩
    | ok v =>
      by_cases hres : o.parseResource v = []
      · exact ⟨{ errMsg := "", policyStatus := PolicyStatusPassed },
          by simp [PolicyTest, h1, h2, h3, h4, hr, hres], Or.inr (Or.inl rfl)⟩
      · have : (o.parseResource v).length > 0 := List.length_pos.mpr hres
        exact ⟨{ errMsg := "", policyStatus := PolicyStatusViolated },
          by simp [PolicyTest, h1, h2, h3, h4, hr, this],
          Or.inr (Or.inr rfl)⟩

/-- A concrete evaluation environment for the C5 witness: the evaluator
fails with a parse error. -/
def policyTestEnvFailing : PolicyTestEnv where
  inputValid := true
  mkTempOk := true
  writeRegoOk := true
  writeInputOk := true
  regoParse := .error "rego_parse_error"
  parseResource := fun _ => []

/-- Witness for C5: a concrete evaluator error is classified `failed`. -/
theorem policy_test_classification_witness :
    PolicyTest policyTestEnvFailing =
      .ok { errMsg := "rego_parse_error", policyStatus := PolicyStatusFailed } := by
  exact (policy_test_classification policyTestEnvFailing rfl rfl rfl rfl).1
    "rego_parse_error" rfl

/-- The upsert loop of the drift pass adds exactly the addresses whose
resource lookup succeeds. -/
theorem foldl_upsert_eq (lookup : String → Option Nat) (l : List String)
    (B : Finset String) :
    l.foldl
        (fun s address =>
          match lookup address with
          | none => s
          | some _ => InsertOrUpdateCronTaskInfo s address)
        B =
      B ∪ (l.filter (fun a => (lookup a).isSome)).toFinset := by
  induction l generalizing B with
  | nil => simp
  | cons a t ih =>
    simp only [List.foldl_cons, List.filter_cons]
    cases h : lookup a with
    | none =>
      simp [h, ih]
    | some r =>
      rw [ih]
      ext x
      simp [InsertOrUpdateCronTaskInfo]

/-- Claim C1: a drift detection pass reconciles the stored drift rows with
the newly detected address set — when every detected address resolves to a
resource, the rows for the environment's last-apply task afterwards are
exactly the detected addresses, and an empty detection deletes all prior
rows. -/
theorem drift_reconciliation (o : DriftOracle) (lookup : String → Option Nat)
    (driftMap : List String) (rows : Finset String) (step : Nat) (env0 : Env)
    (hps : o.planStep = some step) (hlog : o.logBytes = some driftMap)
    (henv : o.getEnv = some env0)
    (hall : ∀ a ∈ driftMap, (lookup a).isSome = true) :
    taskDoneProcessDriftTask o lookup rows = .ok driftMap.toFinset ∧
    (driftMap = [] → taskDoneProcessDriftTask o lookup rows = .ok ∅) := by
  have hmain : taskDoneProcessDriftTask o lookup rows = .ok driftMap.toFinset := by
    simp only [taskDoneProcessDriftTask, hps, hlog, henv]
    congr 1
    by_cases hnil : driftMap = []
    · subst hnil
      simp [reconcileDrift, DeleteEnvResourceDrift]
    · have hfilter : driftMap.filter (fun a => (lookup a).isSome) = driftMap :=
        List.filter_eq_self.mpr hall
      simp only [reconcileDrift]
      rw [if_neg hnil, foldl_upsert_eq, hfilter]
      ext x
      simp only [DeleteEnvResourceDriftByAddressList, Finset.mem_union,
        Finset.mem_filter, List.mem_toFinset, decide_eq_true_eq]
      tauto
  exact ⟨hmain, fun hnil => by rw [hmain, hnil]; simp⟩

/-- Concrete drift oracle for the C1 witness: previous drift rows for
addresses A and B, new detection of B and C, every lookup succeeding. -/
def driftOracleBC : DriftOracle where
  planStep := some 1
  logBytes := some ["B", "C"]
  getEnv := some
    { id := "env1"
      status := EnvStatusActive
      ttl := ""
      autoDestroyAt := none
      autoDestroyTaskId := ""
      lastResTaskId := "t1"
      lastScanTaskId := "" }

/-- Witness for C1: previous rows for A and B with a new detection of B and
C leave rows for exactly B and C. -/
theorem drift_reconciliation_witness :
    taskDoneProcessDriftTask driftOracleBC (fun _ => some 7)
        ({"A", "B"} : Finset String) = .ok (["B", "C"].toFinset) := by
  exact (drift_reconciliation driftOracleBC (fun _ => some 7) ["B", "C"]
    ({"A", "B"} : Finset String) 1
    { id := "env1"
      status := EnvStatusActive
      ttl := ""
      autoDestroyAt := none
      autoDestroyTaskId := ""
      lastResTaskId := "t1"
      lastScanTaskId := "" }
    rfl rfl rfl (fun a _ => rfl)).1

/-- Claim C9: drift recording is best-effort per resource — a failing
resource lookup for one detected address does not abort the pass and does
not prevent the drift row of another detected address from being written;
the failed address is merely skipped (it gains no new row). -/
theorem drift_best_effort (o : DriftOracle) (lookup : String → Option Nat)
    (driftMap : List String) (rows : Finset String) (step : Nat) (env0 : Env)
    (a b : String)
    (hps : o.planStep = some step) (hlog : o.logBytes = some driftMap)
    (henv : o.getEnv = some env0)
    (ha : a ∈ driftMap) (hfail : lookup a = none)
    (hb : b ∈ driftMap) (hok : (lookup b).isSome = true) :
    ∃ s, taskDoneProcessDriftTask o lookup rows = .ok s ∧ b ∈ s ∧
      (a ∉ rows → a ∉ s) := by
  have hnil : driftMap ≠ [] := by
    intro h
    rw [h] at ha
    exact absurd ha (List.not_mem_nil a)
  refine ⟨reconcileDrift lookup driftMap rows, ?_, ?_, ?_⟩
  · simp only [taskDoneProcessDriftTask, hps, hlog, henv]
  · simp only [reconcileDrift]
    rw [if_neg hnil, foldl_upsert_eq]
    apply Finset.mem_union_right
    rw [List.mem_toFinset, List.mem_filter]
    exact ⟨hb, by simp [hok]⟩
  · intro hanot
    simp only [reconcileDrift]
    rw [if_neg hnil, foldl_upsert_eq, Finset.mem_union]
    rintro (hin | hin)
    · exact hanot (Finset.mem_of_mem_filter a hin)
    · rw [List.mem_toFinset, List.mem_filter] at hin
      rw [hfail] at hin
      simp at hin

/-- Concrete drift oracle for the C9 witness: detection of X and B where
the lookup for X fails and the lookup for B succeeds. -/
def driftOracleXB : DriftOracle where
  planStep := some 1
  logBytes := some ["X", "B"]
  getEnv := some
    { id := "env1"
      status := EnvStatusActive
      ttl := ""
      autoDestroyAt := none
      autoDestroyTaskId := ""
      lastResTaskId := "t1"
      lastScanTaskId := "" }

/-- The per-address resource lookup used by the C9 witness. -/
def lookupXfails : String → Option Nat := fun a => if a = "X" then none else some 7

/-- Witness for C9: the failing address X is skipped while B's drift row is
still written. -/
theorem drift_best_effort_witness :
    ∃ s, taskDoneProcessDriftTask driftOracleXB lookupXfails
        ({"A", "B"} : Finset String) = .ok s ∧ "B" ∈ s ∧
      ("X" ∉ ({"A", "B"} : Finset String) → "X" ∉ s) := by
  exact drift_best_effort driftOracleXB lookupXfails ["X", "B"]
    ({"A", "B"} : Finset String) 1
    { id := "env1"
      status := EnvStatusActive
      ttl := ""
      autoDestroyAt := none
      autoDestroyTaskId := ""
      lastResTaskId := "t1"
      lastScanTaskId := "" }
    "X" "B" rfl rfl rfl (by decide) (by decide) (by decide) (by decide)

/-- Time-point columns for the C2 failing input: a two-day range. -/
def c2TimePoints : List String := ["07-01", "07-02"]

/-- First scan-status row of the C2 failing input: day 1, passed, count 2. -/
def c2Rec1 : ScanStatusRec where
  date := "2021-07-01T00:00:00+08:00"
  status := "passed"
  count := 2

/-- Second scan-status row of the C2 failing input: day 2, passed, count 4. -/
def c2Rec2 : ScanStatusRec where
  date := "2021-07-02T00:00:00+08:00"
  status := "passed"
  count := 4

/-- Claim C2, evaluated at the failing input (code_bug): the report code
runs its pass-rate normalization inside the per-record loop, so a record
for a later day divides an earlier day's already-normalized rate again.
With passed counts 2 on day 1 and 4 on day 2 the code yields rates
[1/2, 1], while the specified rate (passed count over total non-pending
count per bucket, via `specBucketPassRate`) is [1, 1].  The date buckets
themselves are initialized to zero (totals start at [0, 0] and an empty
status list leaves every bucket at zero). -/
theorem scan_report_rate_code_bug :
    policyScanReportRates c2TimePoints [c2Rec1, c2Rec2] =
      .ok ([2, 4], [1/2, 1]) ∧
    c2TimePoints.map (specBucketPassRate [c2Rec1, c2Rec2]) = [1, 1] ∧
    ((1 : ℚ)/2 ≠ 1) ∧
    policyScanReportRates c2TimePoints [] = .ok ([0, 0], [0, 0]) := by
  refine ⟨?_, ?_, by norm_num, rfl⟩
  · have hsd1 : shortDate "2021-07-01T00:00:00+08:00" = "07-01" := rfl
    have hsd2 : shortDate "2021-07-02T00:00:00+08:00" = "07-02" := rfl
    have e1 : scanReportStep c2TimePoints (([0, 0] : List Int), ([0, 0] : List ℚ))
        c2Rec1 = .ok ([2, 0], [1, 0]) := by
      simp [scanReportStep, c2Rec1, c2TimePoints, hsd1, PolicyStatusPending,
        PolicyStatusPassed]
    have e2 : scanReportStep c2TimePoints (([2, 0] : List Int), ([1, 0] : List ℚ))
        c2Rec2 = .ok ([2, 4], [1/2, 1]) := by
      simp [scanReportStep, c2Rec2, c2TimePoints, hsd2, PolicyStatusPending,
        PolicyStatusPassed]
    have h0 : policyScanReportRates c2TimePoints [c2Rec1, c2Rec2] =
        (scanReportStep c2TimePoints (([0, 0] : List Int), ([0, 0] : List ℚ))
            c2Rec1).bind
          (fun b1 => (scanReportStep c2TimePoints b1 c2Rec2).bind
            (fun b2 => Except.ok b2)) := rfl
    rw [h0, e1]
    rw [show (Except.ok (([2, 0] : List Int), ([1, 0] : List ℚ))).bind
          (fun b1 => (scanReportStep c2TimePoints b1 c2Rec2).bind
            (fun b2 => Except.ok b2)) =
        (scanReportStep c2TimePoints (([2, 0] : List Int), ([1, 0] : List ℚ))
            c2Rec2).bind (fun b2 => Except.ok b2) from rfl]
    rw [e2]
    rfl
  · have hsd1 : shortDate "2021-07-01T00:00:00+08:00" = "07-01" := rfl
    have hsd2 : shortDate "2021-07-02T00:00:00+08:00" = "07-02" := rfl
    simp [c2TimePoints, specBucketPassRate, c2Rec1, c2Rec2, hsd1, hsd2,
      PolicyStatusPending, PolicyStatusPassed]

/-- A database for the C7 failing input: every gate check passes. -/
def c7Db : PolicyDb where
  getEnvById := fun _ => .ok { archived := false }
  isEnvEnabledScan := fun _ => .ok true
  getTemplateById := fun _ => .ok { status := "enable" }
  isTemplateEnabledScan := fun _ => .ok true

/-- Step oracles for the C7 failing input: runner resolution and task
creation succeed, and `InitScanResult` fails. -/
def c7Steps : ScanSteps where
  getDefaultRunnerId := .ok "runner1"
  createTask := .ok { id := "task1", type := TaskTypeTplScan }
  initScanResult := some ECode.DBError
  updateLastScan := none
  commit := none

/-- Claim C7, evaluated at the failing input (code_bug): when
`InitScanResult` fails after the scan task was created inside the open
transaction, `ScanTemplateOrEnv` returns the error with the transaction
left in the `opened` state — neither rolled back (as the claim requires)
nor committed. -/
theorem scan_task_atomicity_code_bug :
    ScanTemplateOrEnv c7Db c7Steps "tpl1" "" false =
      (TxState.opened, .error ECode.DBError) ∧
    TxState.opened ≠ TxState.rolledBack ∧
    TxState.opened ≠ TxState.committed := by
  refine ⟨?_, by decide, by decide⟩
  rfl

/-! ## Facts about `groupByGroup` (claim C10)

`dedupAdj` collapses adjacent equal names; `ContiguousNames` states that
all equal names occur contiguously; `summaryOf` is the status tally of a
row list.  These are specification-side helpers for stating the claim. -/

/-- Status tallies of a list of policy results. -/
def summaryOf (l : List PolicyResult) : Summary where
  passed := (l.filter (fun r => r.status = PolicyStatusPassed)).length
  violated := (l.filter (fun r => r.status = PolicyStatusViolated)).length
  suppressed := (l.filter (fun r => r.status = PolicyStatusSuppressed)).length
  failed := (l.filter (fun r => r.status = PolicyStatusFailed)).length

/-- Collapse a run of names equal to `a`, then switch to the next name. -/
def dedupAdjFrom (a : String) : List String → List String
  | [] => []
  | b :: t => if a = b then dedupAdjFrom a t else b :: dedupAdjFrom b t

/-- Remove adjacent duplicate names. -/
def dedupAdj : List String → List String
  | [] => []
  | a :: t => a :: dedupAdjFrom a t

/-- All equal names occur contiguously: between any two occurrences of a
name, every name equals it. -/
def ContiguousNames (l : List String) : Prop :=
  ∀ x l1 l2 l3, l = l1 ++ x :: (l2 ++ x :: l3) → ∀ y ∈ l2, y = x

/-- Rows sharing a policy-group name are contiguous in the input. -/
def ContiguousRows (rs : List PolicyResult) : Prop :=
  ContiguousNames (rs.map (fun r => r.policyGroupName))

theorem summaryOf_append_singleton (l : List PolicyResult) (r : PolicyResult) :
    summaryOf (l ++ [r]) = bumpSummary (summaryOf l) r.status := by
  by_cases h1 : r.status = PolicyStatusPassed
  · simp [summaryOf, bumpSummary, List.filter_append, h1, PolicyStatusPassed,
      PolicyStatusViolated, PolicyStatusSuppressed, PolicyStatusFailed]
  · by_cases h2 : r.status = PolicyStatusViolated
    · simp [summaryOf, bumpSummary, List.filter_append, h1, h2,
        PolicyStatusPassed, PolicyStatusViolated, PolicyStatusSuppressed,
        PolicyStatusFailed]
    · by_cases h3 : r.status = PolicyStatusFailed
      · simp [summaryOf, bumpSummary, List.filter_append, h1, h2, h3,
          PolicyStatusPassed, PolicyStatusViolated, PolicyStatusSuppressed,
          PolicyStatusFailed]
      · by_cases h4 : r.status = PolicyStatusSuppressed
        · simp [summaryOf, bumpSummary, List.filter_append, h1, h2, h3, h4,
            PolicyStatusPassed, PolicyStatusViolated, PolicyStatusSuppressed,
            PolicyStatusFailed]
        · simp [summaryOf, bumpSummary, List.filter_append, h1, h2, h3, h4]

theorem mem_dedupAdjFrom_cons (x a : String) (l : List String) :
    x ∈ a :: dedupAdjFrom a l ↔ x ∈ a :: l := by
  induction l generalizing a with
  | nil => simp [dedupAdjFrom]
  | cons b t ih =>
    simp only [dedupAdjFrom]
    by_cases h : a = b
    · rw [if_pos h]
      subst h
      rw [ih a]
      simp only [List.mem_cons]
      tauto
    · rw [if_neg h]
      constructor
      · intro hx
        rcases List.mem_cons.mp hx with rfl | hx2
        · exact List.mem_cons_self _ _
        · exact List.mem_cons_of_mem a ((ih b).mp hx2)
      · intro hx
        rcases List.mem_cons.mp hx with rfl | hx2
        · exact List.mem_cons_self _ _
        · exact List.mem_cons_of_mem a ((ih b).mpr hx2)

theorem mem_dedupAdj (x : String) (l : List String) :
    x ∈ dedupAdj l ↔ x ∈ l := by
  cases l with
  | nil => simp [dedupAdj]
  | cons a t => exact mem_dedupAdjFrom_cons x a t

theorem contiguousNames_nil : ContiguousNames [] := by
  intro x l1 l2 l3 h
  simp at h

theorem contiguousNames_singleton (a : String) : ContiguousNames [a] := by
  intro x l1 l2 l3 h y hy
  have hlen := congrArg List.length h
  simp [List.length_append] at hlen
  omega

theorem contiguousNames_tail (a : String) (l : List String)
    (h : ContiguousNames (a :: l)) : ContiguousNames l := by
  intro x l1 l2 l3 hl y hy
  exact h x (a :: l1) l2 l3 (by rw [hl]; rfl) y hy

theorem contiguousNames_cons_dup (a : String) (l : List String) :
    ContiguousNames (a :: a :: l) ↔ ContiguousNames (a :: l) := by
  constructor
  · intro h x l1 l2 l3 hl y hy
    exact h x (a :: l1) l2 l3 (by rw [hl]; rfl) y hy
  · intro h x l1 l2 l3 hl y hy
    cases l1 with
    | nil =>
      rw [List.nil_append] at hl
      injection hl with h1 h2
      subst h1
      cases l2 with
      | nil => simp at hy
      | cons c l2' =>
        rw [List.cons_append] at h2
        injection h2 with h3 h4
        have hall : ∀ z ∈ l2', z = a :=
          h a [] l2' l3 (by rw [List.nil_append, h4])
        rcases List.mem_cons.mp hy with rfl | hy2
        · exact h3.symm
        · exact hall y hy2
    | cons c l1' =>
      rw [List.cons_append] at hl
      injection hl with h1 h2
      exact h x l1' l2 l3 h2 y hy

theorem contiguousNames_cons_ne (a b : String) (l : List String) (hab : a ≠ b) :
    ContiguousNames (a :: b :: l) ↔ a ∉ (b :: l) ∧ ContiguousNames (b :: l) := by
  constructor
  · intro h
    refine ⟨?_, contiguousNames_tail a _ h⟩
    intro hmem
    obtain ⟨s, t, hst⟩ := List.append_of_mem hmem
    have hall : ∀ z ∈ s, z = a :=
      h a [] s t (by rw [List.nil_append, hst])
    cases s with
    | nil =>
      rw [List.nil_append] at hst
      injection hst with h1 h2
      exact hab h1.symm
    | cons c s' =>
      rw [List.cons_append] at hst
      injection hst with h1 h2
      exact hab ((hall c (List.mem_cons_self c s')).symm.trans h1.symm)
  · intro hcl x l1 l2 l3 hl y hy
    obtain ⟨hnot, h⟩ := hcl
    cases l1 with
    | nil =>
      rw [List.nil_append] at hl
      injection hl with h1 h2
      subst h1
      exact absurd (h2.symm ▸ List.mem_append_right l2 (List.mem_cons_self a l3))
        hnot
    | cons c l1' =>
      rw [List.cons_append] at hl
      injection hl with h1 h2
      exact h x l1' l2 l3 h2 y hy

theorem nodup_cons_dedupAdjFrom_iff (l : List String) :
    ∀ a, (a :: dedupAdjFrom a l).Nodup ↔ ContiguousNames (a :: l) := by
  induction l with
  | nil =>
    intro a
    constructor
    · intro _
      exact contiguousNames_singleton a
    · intro _
      simp [dedupAdjFrom]
  | cons b t ih =>
    intro a
    by_cases h : a = b
    · subst h
      rw [show dedupAdjFrom a (a :: t) = dedupAdjFrom a t from by
        simp [dedupAdjFrom]]
      rw [ih a, contiguousNames_cons_dup]
    · rw [show dedupAdjFrom a (b :: t) = b :: dedupAdjFrom b t from by
        simp [dedupAdjFrom, h]]
      rw [contiguousNames_cons_ne a b t h, List.nodup_cons, ih b,
        mem_dedupAdjFrom_cons a b t]

theorem nodup_dedupAdj_iff_contiguous (l : List String) :
    (dedupAdj l).Nodup ↔ ContiguousNames l := by
  cases l with
  | nil =>
    simp only [dedupAdj, List.nodup_nil, true_iff]
    exact contiguousNames_nil
  | cons a t => exact nodup_cons_dedupAdjFrom_iff t a

theorem gbgRun_flatMap_list (rs : List PolicyResult) :
    ∀ cur : PolicyResultGroup,
      (gbgRun cur true rs).flatMap (fun g => g.list) = cur.list ++ rs := by
  induction rs with
  | nil =>
    intro cur
    simp [gbgRun]
  | cons r rest ih =>
    intro cur
    simp only [gbgRun]
    by_cases h : cur.name = r.policyGroupName
    · rw [if_pos h, ih]
      simp [addRow]
    · rw [if_neg h]
      simp only [if_pos, List.flatMap_append, ih]
      simp [addRow, List.flatMap_cons]

theorem gbgRun_map_name (rs : List PolicyResult) :
    ∀ cur : PolicyResultGroup,
      (gbgRun cur true rs).map (fun g => g.name) =
        cur.name ::
          dedupAdjFrom cur.name (rs.map (fun r => r.policyGroupName)) := by
  induction rs with
  | nil =>
    intro cur
    simp [gbgRun, dedupAdjFrom]
  | cons r rest ih =>
    intro cur
    simp only [gbgRun, List.map_cons, dedupAdjFrom]
    by_cases h : cur.name = r.policyGroupName
    · rw [if_pos h, ih, if_pos h]
      rfl
    · rw [if_neg h, if_neg h]
      simp only [if_pos, List.map_append, ih]
      rfl

theorem gbgRun_groups_wf (rs : List PolicyResult) :
    ∀ cur : PolicyResultGroup,
      (∀ r ∈ cur.list, r.policyGroupName = cur.name) →
      cur.summary = summaryOf cur.list →
      cur.list ≠ [] →
      ∀ g ∈ gbgRun cur true rs,
        (∀ r ∈ g.list, r.policyGroupName = g.name) ∧
        g.summary = summaryOf g.list ∧ g.list ≠ [] := by
  induction rs with
  | nil =>
    intro cur hn hs hne g hg
    simp only [gbgRun, if_pos, List.mem_singleton] at hg
    subst hg
    exact ⟨hn, hs, hne⟩
  | cons r rest ih =>
    intro cur hn hs hne g hg
    simp only [gbgRun] at hg
    by_cases h : cur.name = r.policyGroupName
    · rw [if_pos h] at hg
      refine ih (addRow cur r) ?_ ?_ (by simp [addRow]) g hg
      · intro r2 hr2
        rcases List.mem_append.mp hr2 with hr2 | hr2
        · exact hn r2 hr2
        · rw [List.mem_singleton] at hr2
          subst hr2
          exact h.symm
      · rw [show (addRow cur r).list = cur.list ++ [r] from rfl,
          summaryOf_append_singleton, ← hs]
        rfl
    · rw [if_neg h, if_pos trivial] at hg
      rcases List.mem_append.mp hg with hg | hg
      · rw [List.mem_singleton] at hg
        subst hg
        exact ⟨hn, hs, hne⟩
      · refine ih _ ?_ ?_ (by simp [addRow]) g hg
        · intro r2 hr2
          simp only [addRow, List.nil_append, List.mem_singleton] at hr2
          subst hr2
          rfl
        · rw [show (addRow { id := r.policyGroupId, name := r.policyGroupName }
              r).list = [r] from rfl]
          rw [show ([r] : List PolicyResult) = [] ++ [r] from rfl,
            summaryOf_append_singleton]
          rfl

theorem flatMap_filter_const_names (gs : List PolicyResultGroup) (n : String)
    (hconst : ∀ g ∈ gs, ∀ r ∈ g.list, r.policyGroupName = g.name) :
    (gs.flatMap (fun g => g.list)).filter (fun r => r.policyGroupName = n) =
      (gs.filter (fun g => g.name = n)).flatMap (fun g => g.list) := by
  induction gs with
  | nil => simp
  | cons g t ih =>
    have hg := hconst g (List.mem_cons_self g t)
    have ht : ∀ g2 ∈ t, ∀ r ∈ g2.list, r.policyGroupName = g2.name :=
      fun g2 hg2 => hconst g2 (List.mem_cons_of_mem g hg2)
    simp only [List.flatMap_cons, List.filter_append, List.filter_cons]
    by_cases hn : g.name = n
    · rw [if_pos (by simp [hn])]
      rw [List.filter_eq_self.mpr (fun r hr => by simp [hg r hr, hn]), ih ht]
      simp [List.flatMap_cons]
    · rw [if_neg (by simp [hn])]
      rw [List.filter_eq_nil_iff.mpr (fun r hr => by simp [hg r hr, hn]), ih ht]
      simp

theorem filter_name_singleton (gs : List PolicyResultGroup)
    (g : PolicyResultGroup) (hg : g ∈ gs)
    (hnodup : (gs.map (fun x => x.name)).Nodup) :
    gs.filter (fun x => x.name = g.name) = [g] := by
  induction gs with
  | nil => simp at hg
  | cons h t ih =>
    rw [List.map_cons, List.nodup_cons] at hnodup
    rcases List.mem_cons.mp hg with rfl | hgt
    · rw [List.filter_cons, if_pos (by simp)]
      rw [List.filter_eq_nil_iff.mpr ?_]
      · intro x hx
        simp only [decide_eq_true_eq]
        intro hxg
        exact hnodup.1 (hxg ▸ List.mem_map_of_mem (fun y => y.name) hx)
    · rw [List.filter_cons, if_neg ?_, ih hgt hnodup.2]
      simp only [decide_eq_true_eq]
      intro hhg
      exact hnodup.1 (hhg ▸ List.mem_map_of_mem (fun y => y.name) hgt)

/-- Claim C10 (amended): provided the first row's group name is nonempty —
the Go loop's sentinel `lastGroup` has the empty name, so leading rows
named `""` are absorbed into a group that never reaches the output —
`groupByGroup` starts a new output group exactly when a row's group name
differs from the immediately preceding row's: the concatenation of the
output groups' lists is the input in order, the output group names are the
input's name sequence with adjacent duplicates collapsed, every row of a
group carries the group's name, and each group's tallies count its rows by
status.  If all rows sharing a name are contiguous there is exactly one
group per distinct name and its list is exactly the input rows with that
name; for a non-contiguous input some name occurs as two or more output
groups. -/
theorem group_by_group_spec (rs : List PolicyResult)
    (h0 : ∀ r ∈ rs.take 1, r.policyGroupName ≠ "") :
    ((groupByGroup rs).flatMap (fun g => g.list) = rs) ∧
    ((groupByGroup rs).map (fun g => g.name) =
      dedupAdj (rs.map (fun r => r.policyGroupName))) ∧
    (∀ g ∈ groupByGroup rs,
      (∀ r ∈ g.list, r.policyGroupName = g.name) ∧
      g.summary = summaryOf g.list ∧ g.list ≠ []) ∧
    (ContiguousRows rs →
      ((groupByGroup rs).map (fun g => g.name)).Nodup ∧
      (∀ n, n ∈ (groupByGroup rs).map (fun g => g.name) ↔
        n ∈ rs.map (fun r => r.policyGroupName)) ∧
      (∀ g ∈ groupByGroup rs,
        g.list = rs.filter (fun r => r.policyGroupName = g.name))) ∧
    (¬ ContiguousRows rs →
      ∃ n, 2 ≤ ((groupByGroup rs).map (fun g => g.name)).count n) := by
  cases rs with
  | nil =>
    refine ⟨rfl, rfl, ?_, ?_, ?_⟩
    · intro g hg
      simp [groupByGroup, gbgRun] at hg
    · intro _
      refine ⟨by simp [groupByGroup, gbgRun], fun n => ?_, ?_⟩
      · simp [groupByGroup, gbgRun]
      · intro g hg
        simp [groupByGroup, gbgRun] at hg
    · intro hnc
      exact absurd contiguousNames_nil hnc
  | cons r rest =>
    have hname : r.policyGroupName ≠ "" := h0 r (by simp)
    have hred : groupByGroup (r :: rest) =
        gbgRun (addRow { id := r.policyGroupId, name := r.policyGroupName } r)
          true rest := by
      simp only [groupByGroup, gbgRun]
      rw [if_neg (fun hcon => hname hcon.symm)]
      simp
    have h1 : (groupByGroup (r :: rest)).flatMap (fun g => g.list) =
        r :: rest := by
      rw [hred, gbgRun_flatMap_list]
      rfl
    have h2 : (groupByGroup (r :: rest)).map (fun g => g.name) =
        dedupAdj ((r :: rest).map (fun x => x.policyGroupName)) := by
      rw [hred, gbgRun_map_name]
      rfl
    have h3 : ∀ g ∈ groupByGroup (r :: rest),
        (∀ r2 ∈ g.list, r2.policyGroupName = g.name) ∧
        g.summary = summaryOf g.list ∧ g.list ≠ [] := by
      intro g hg
      rw [hred] at hg
      refine gbgRun_groups_wf rest _ ?_ ?_ (by simp [addRow]) g hg
      · intro r2 hr2
        simp only [addRow, List.nil_append, List.mem_singleton] at hr2
        subst hr2
        rfl
      · rw [show (addRow { id := r.policyGroupId, name := r.policyGroupName }
            r).list = [r] from rfl]
        rw [show ([r] : List PolicyResult) = [] ++ [r] from rfl,
          summaryOf_append_singleton]
        rfl
    refine ⟨h1, h2, h3, ?_, ?_⟩
    · intro hcont
      have hnodup : ((groupByGroup (r :: rest)).map (fun g => g.name)).Nodup := by
        rw [h2]
        exact (nodup_dedupAdj_iff_contiguous _).mpr hcont
      refine ⟨hnodup, fun n => by rw [h2, mem_dedupAdj], ?_⟩
      intro g hg
      have hdec := flatMap_filter_const_names (groupByGroup (r :: rest)) g.name
        (fun g2 hg2 => (h3 g2 hg2).1)
      rw [h1, filter_name_singleton (groupByGroup (r :: rest)) g hg hnodup]
        at hdec
      rw [hdec]
      simp
    · intro hnc
      have hnd : ¬ ((groupByGroup (r :: rest)).map (fun g => g.name)).Nodup := by
        rw [h2, nodup_dedupAdj_iff_contiguous]
        exact hnc
      rw [List.nodup_iff_count_le_one] at hnd
      push_neg at hnd
      obtain ⟨n, hn2⟩ := hnd
      exact ⟨n, hn2⟩

/-- The C10 counterexample row: a row whose policy-group name is the empty
string, colliding with the Go sentinel group's name. -/
def c10Row : PolicyResult where
  policyGroupId := "g1"
  policyGroupName := ""
  status := "passed"

/-- Counterexample to claim C10 as stated: the one-row input `[c10Row]`
trivially has all rows of each group name contiguous, and has one distinct
group name, yet `groupByGroup` returns no group at all (the row is absorbed
into the sentinel group, which is never emitted) instead of one group with
a passed tally of 1. -/
theorem group_by_group_counterexample :
    ContiguousRows [c10Row] ∧
    groupByGroup [c10Row] = [] ∧
    (groupByGroup [c10Row]).length ≠
      (([c10Row].map (fun r => r.policyGroupName)).dedup).length := by
  refine ⟨?_, rfl, by decide⟩
  exact contiguousNames_singleton ""

/-- A contiguous three-row input used by the C10 witness. -/
def c10ExampleRows : List PolicyResult :=
  [{ policyGroupId := "1", policyGroupName := "A", status := "passed" },
   { policyGroupId := "1", policyGroupName := "A", status := "violated" },
   { policyGroupId := "2", policyGroupName := "B", status := "passed" }]

/-- Witness for C10 (amended) at a concrete input with a nonempty first
group name. -/
theorem group_by_group_spec_witness :
    (groupByGroup c10ExampleRows).flatMap (fun g => g.list) = c10ExampleRows := by
  exact (group_by_group_spec c10ExampleRows (by decide)).1

end Cloudiac
